import Mathlib

/-!
Shallow embedding of the discord contest-reminder bot (index.js, enhanced
version) and proofs about it.  Pure/observable parts of the JavaScript are
translated into Lean: asynchronous sends become action traces, logToFile
calls become log-event lists, and external collaborators (the Discord cache,
the HTTP responses, Date parsing, the cron library validator) are passed in
as explicit parameters.
-/

namespace ContestBot

/-- `MAX_RETRIES` constant from index.js. -/
def MAX_RETRIES : Nat := 3

/-- `RETRY_DELAY` constant from index.js (milliseconds). -/
def RETRY_DELAY : Nat := 60000

/-- JS truthiness of an optional string field (`undefined`, `null` and the
empty string are falsy). -/
def truthyStr : Option String → Bool
  | none => false
  | some s => s != ""

/-- JS truthiness of an optional numeric field (`undefined`, `null` and `0`
are falsy). -/
def truthyNum : Option ℚ → Bool
  | none => false
  | some q => q != 0

/-- A contest record as the adapters build it and the composer consumes it.
All fields are optional because upstream payloads are duck typed. -/
structure Contest where
  title : Option String := none
  startTime : Option ℚ := none
  endTime : Option ℚ := none
  duration : Option ℚ := none
  url : Option String := none
  descr : Option String := none
deriving Repr, DecidableEq

/-- Log events emitted through `logToFile` by the retry wrapper. -/
inductive LogEvent where
  | fetchError (platform : String) (attempt : Nat) (maxR : Nat) (msg : String)
  | retrying (platform : String)
  | givingUp (platform : String)
deriving Repr, DecidableEq

/-- Trace of one `fetchWithRetry` run: the value returned to the caller, the
list of `retries` values at which `fetchFunc` was invoked, the delays slept
between consecutive attempts, and the log lines written. -/
structure RetryTrace (α : Type) where
  result : List α
  calls : List Nat
  delays : List Nat
  log : List LogEvent
deriving Repr, DecidableEq

/-- Embedding of `fetchWithRetry(fetchFunc, platform, retries)`.  The fetch
operation is modelled as a function of the attempt index that either returns
a list (resolves) or an error message (rejects). -/
def fetchWithRetry (fetchFunc : Nat → Except String (List α)) (platform : String)
    (retries : Nat) : RetryTrace α :=
  match fetchFunc retries with
  | Except.ok v =>
      { result := v, calls := [retries], delays := [], log := [] }
  | Except.error e =>
      let l1 := LogEvent.fetchError platform (retries + 1) MAX_RETRIES e
      if h : retries < MAX_RETRIES then
        let rest := fetchWithRetry fetchFunc platform (retries + 1)
        { result := rest.result
          calls := retries :: rest.calls
          delays := RETRY_DELAY :: rest.delays
          log := l1 :: LogEvent.retrying platform :: rest.log }
      else
        { result := [], calls := [retries], delays := []
          log := [l1, LogEvent.givingUp platform] }
termination_by MAX_RETRIES + 1 - retries
decreasing_by omega

/-- Claim C1: when the operation fails on every attempt, `fetchWithRetry`
invokes it exactly `MAX_RETRIES + 1 = 4` times (at attempt indices 0,1,2,3),
sleeps the constant `RETRY_DELAY` between consecutive attempts, logs every
failed attempt with its attempt number, and returns the empty list without
propagating any error (the embedding is a total function returning a trace,
matching the catch-all in the source). -/
theorem fetchWithRetry_all_attempts_fail (fetchFunc : Nat → Except String (List Contest))
    (platform : String) (h : ∀ n, ∃ e, fetchFunc n = Except.error e) :
    (fetchWithRetry fetchFunc platform 0).calls.length = MAX_RETRIES + 1 ∧
    (fetchWithRetry fetchFunc platform 0).calls = [0, 1, 2, 3] ∧
    (fetchWithRetry fetchFunc platform 0).delays = [RETRY_DELAY, RETRY_DELAY, RETRY_DELAY] ∧
    (∃ e0 e1 e2 e3,
      (fetchWithRetry fetchFunc platform 0).log =
        [LogEvent.fetchError platform 1 MAX_RETRIES e0, LogEvent.retrying platform,
         LogEvent.fetchError platform 2 MAX_RETRIES e1, LogEvent.retrying platform,
         LogEvent.fetchError platform 3 MAX_RETRIES e2, LogEvent.retrying platform,
         LogEvent.fetchError platform 4 MAX_RETRIES e3, LogEvent.givingUp platform]) ∧
    (fetchWithRetry fetchFunc platform 0).result = [] := by
  obtain ⟨e0, h0⟩ := h 0
  obtain ⟨e1, h1⟩ := h 1
  obtain ⟨e2, h2⟩ := h 2
  obtain ⟨e3, h3⟩ := h 3
  have s3 : fetchWithRetry fetchFunc platform 3 =
      { result := [], calls := [3], delays := []
        log := [LogEvent.fetchError platform 4 MAX_RETRIES e3, LogEvent.givingUp platform] } := by
    rw [fetchWithRetry.eq_def, h3]
    simp [MAX_RETRIES]
  have s2 : fetchWithRetry fetchFunc platform 2 =
      { result := [], calls := [2, 3], delays := [RETRY_DELAY]
        log := [LogEvent.fetchError platform 3 MAX_RETRIES e2, LogEvent.retrying platform,
                LogEvent.fetchError platform 4 MAX_RETRIES e3, LogEvent.givingUp platform] } := by
    rw [fetchWithRetry.eq_def, h2]
    simp [MAX_RETRIES, s3]
  have s1 : fetchWithRetry fetchFunc platform 1 =
      { result := [], calls := [1, 2, 3], delays := [RETRY_DELAY, RETRY_DELAY]
        log := [LogEvent.fetchError platform 2 MAX_RETRIES e1, LogEvent.retrying platform,
                LogEvent.fetchError platform 3 MAX_RETRIES e2, LogEvent.retrying platform,
                LogEvent.fetchError platform 4 MAX_RETRIES e3, LogEvent.givingUp platform] } := by
    rw [fetchWithRetry.eq_def, h1]
    simp [MAX_RETRIES, s2]
  have s0 : fetchWithRetry fetchFunc platform 0 =
      { result := [], calls := [0, 1, 2, 3], delays := [RETRY_DELAY, RETRY_DELAY, RETRY_DELAY]
        log := [LogEvent.fetchError platform 1 MAX_RETRIES e0, LogEvent.retrying platform,
                LogEvent.fetchError platform 2 MAX_RETRIES e1, LogEvent.retrying platform,
                LogEvent.fetchError platform 3 MAX_RETRIES e2, LogEvent.retrying platform,
                LogEvent.fetchError platform 4 MAX_RETRIES e3, LogEvent.givingUp platform] } := by
    rw [fetchWithRetry.eq_def, h0]
    simp [MAX_RETRIES, s1]
  refine ⟨?_, ?_, ?_, ⟨e0, e1, e2, e3, ?_⟩, ?_⟩
  all_goals rw [s0]
  all_goals rfl

/-- Closed witness for the C1 theorem at a concrete always-failing operation. -/
theorem fetchWithRetry_all_attempts_fail_witness :
    (fetchWithRetry (fun _ => (Except.error "network down" : Except String (List Contest)))
      "LeetCode" 0).calls.length = MAX_RETRIES + 1 ∧
    (fetchWithRetry (fun _ => (Except.error "network down" : Except String (List Contest)))
      "LeetCode" 0).result = [] := by
  have h := fetchWithRetry_all_attempts_fail
    (fun _ => (Except.error "network down" : Except String (List Contest))) "LeetCode"
    (fun _ => ⟨"network down", rfl⟩)
  exact ⟨h.1, h.2.2.2.2⟩

/-! ## Delivery service (`sendDiscordMessage`) -/

/-- A field added to a rich embed via `embed.addFields`. -/
structure EmbedField where
  name : String
  value : String
deriving Repr, DecidableEq

/-- A rich embed (the parts of `EmbedBuilder` the bot observablely sets). -/
structure Embed where
  title : String
  fields : List EmbedField
deriving Repr, DecidableEq

/-- What is passed to `channel.send`: either a plain string or an object
with an optional `content` string and a list of embeds. -/
inductive MessageContent where
  | text (s : String)
  | rich (content : Option String) (embeds : List Embed)
deriving Repr, DecidableEq

/-- JS `content.content ? content.content : dflt`: a plain string has no
`content` property, and an empty `content` string is falsy. -/
def jsContentOr (m : MessageContent) (dflt : String) : String :=
  match m with
  | MessageContent.text _ => dflt
  | MessageContent.rich none _ => dflt
  | MessageContent.rich (some s) _ => if s = "" then dflt else s

/-- The degraded, error-annotated text-only payload the backup channel
receives when the primary send failed. -/
def degradedContent (m : MessageContent) : MessageContent :=
  MessageContent.rich
    (some ("Warning: Failed to send to main channel. Original message: " ++
      jsContentOr m "No content")) []

/-- Environment-derived configuration constants of index.js. -/
structure Env where
  CHANNEL_ID : String
  BACKUP_CHANNEL_ID : Option String
  DISCORD_ADMIN_ID : Option String

/-- The external Discord state the delivery code interacts with: which
channel ids resolve in the client cache, whether `send` on a given channel
resolves or rejects (with which message), and whether fetching/DM-ing the
admin user succeeds. -/
structure World where
  channelInCache : String → Bool
  sendOk : String → Bool
  sendErrMsg : String → String
  adminFetchOk : Bool
  adminSendOk : Bool
  adminErrMsg : String

/-- Externally visible Discord operations performed by `sendDiscordMessage`. -/
inductive Action where
  | channelSend (channelId : String) (content : MessageContent)
  | adminNotifyAttempt (adminId : String) (text : String)
deriving Repr, DecidableEq

/-- A message object returned by a successful `channel.send`. -/
structure SentMessage where
  channelId : String
  content : MessageContent
deriving Repr, DecidableEq

/-- Trace of one `sendDiscordMessage` call: the value returned to the caller
(`none` models the terminal `return null`), the Discord operations attempted,
and the `logToFile` lines written. -/
structure SendTrace where
  result : Option SentMessage
  actions : List Action
  log : List String
deriving Repr, DecidableEq

/-- The `error.message` of the primary-send failure: either the explicit
`Channel not found` throw or the rejection message of `channel.send`. -/
def primaryErrorMsg (w : World) (channelId : String) : String :=
  if w.channelInCache channelId then w.sendErrMsg channelId
  else "Channel not found: " ++ channelId

/-- Text of the direct admin notification describing the delivery failure. -/
def adminNotifyText (channelId errMsg : String) : String :=
  "Warning: Failed to send reminder to channel " ++ channelId ++ ": " ++ errMsg

/-- The backup-channel block of the catch clause of `sendDiscordMessage`:
only runs when a backup channel is configured and differs from the attempted
channel; a missing backup channel in the cache silently falls through, and a
rejected backup send is caught and logged.  Returns the value a successful
backup send would make the whole function return, the send attempts made,
and the log lines written. -/
def backupAttemptStep (env : Env) (w : World) (channelId : String)
    (content : MessageContent) : Option SentMessage × List Action × List String :=
  match env.BACKUP_CHANNEL_ID with
  | some b =>
    if channelId ≠ b then
      if w.channelInCache b then
        if w.sendOk b then
          (some ⟨b, degradedContent content⟩,
            [Action.channelSend b (degradedContent content)],
            ["Attempting to send to backup channel: " ++ b])
        else
          (none, [Action.channelSend b (degradedContent content)],
            ["Attempting to send to backup channel: " ++ b,
             "Failed to send to backup channel: " ++ w.sendErrMsg b])
      else (none, [], ["Attempting to send to backup channel: " ++ b])
    else (none, [], [])
  | none => (none, [], [])

/-- The admin-notification block of the catch clause of `sendDiscordMessage`:
only runs when an admin id is configured; a failed fetch or DM is caught and
logged. -/
def adminNotifyStep (env : Env) (w : World) (channelId errMsg : String) :
    List Action × List String :=
  match env.DISCORD_ADMIN_ID with
  | some a =>
    (⟨[Action.adminNotifyAttempt a (adminNotifyText channelId errMsg)],
      if w.adminFetchOk && w.adminSendOk then []
      else ["Failed to notify admin: " ++ w.adminErrMsg]⟩ : List Action × List String)
  | none => ([], [])

/-- Embedding of `sendDiscordMessage(channelId, content)`.  The happy path
returns the sent message; the catch block logs, optionally tries the backup
channel (a successful backup send returns immediately, skipping the admin
notification), then optionally notifies the admin, and finally returns
`null`.  The embedding is total: no path rethrows. -/
def sendDiscordMessage (env : Env) (w : World) (channelId : String)
    (content : MessageContent) : SendTrace :=
  if w.channelInCache channelId && w.sendOk channelId then
    { result := some ⟨channelId, content⟩
      actions := [Action.channelSend channelId content]
      log := [] }
  else
    let errMsg := primaryErrorMsg w channelId
    let bs := backupAttemptStep env w channelId content
    match bs.1 with
    | some m =>
      { result := some m, actions := bs.2.1
        log := ("Error sending Discord message: " ++ errMsg) :: bs.2.2 }
    | none =>
      let as := adminNotifyStep env w channelId errMsg
      { result := none, actions := bs.2.1 ++ as.1
        log := (("Error sending Discord message: " ++ errMsg) :: bs.2.2) ++ as.2 }

lemma backupAttemptStep_fst_eq_some (env : Env) (w : World) (channelId : String)
    (content : MessageContent) (b : String)
    (hb : env.BACKUP_CHANNEL_ID = some b) (hne : channelId ≠ b)
    (hc : w.channelInCache b = true) (hs : w.sendOk b = true) :
    (backupAttemptStep env w channelId content).1 =
      some ⟨b, degradedContent content⟩ := by
  unfold backupAttemptStep
  rw [hb]
  simp [hne, hc, hs]

lemma backupAttemptStep_fst_eq_none (env : Env) (w : World) (channelId : String)
    (content : MessageContent)
    (hnb : ∀ b, env.BACKUP_CHANNEL_ID = some b →
      ¬(channelId ≠ b ∧ w.channelInCache b = true ∧ w.sendOk b = true)) :
    (backupAttemptStep env w channelId content).1 = none := by
  unfold backupAttemptStep
  rcases hB : env.BACKUP_CHANNEL_ID with _ | b
  · rfl
  · by_cases hne : channelId = b
    · simp [hne]
    · by_cases hc : w.channelInCache b
      · by_cases hs : w.sendOk b
        · exact absurd ⟨hne, hc, hs⟩ (hnb b hB)
        · simp [hne, hc, hs]
      · simp [hne, hc]

lemma backupAttemptStep_send_mem (env : Env) (w : World) (channelId : String)
    (content : MessageContent) (b : String) (c : MessageContent)
    (hm : Action.channelSend b c ∈ (backupAttemptStep env w channelId content).2.1) :
    env.BACKUP_CHANNEL_ID = some b ∧ channelId ≠ b ∧ c = degradedContent content := by
  unfold backupAttemptStep at hm
  rcases hB : env.BACKUP_CHANNEL_ID with _ | b'
  · rw [hB] at hm; simp at hm
  · rw [hB] at hm
    by_cases hne : channelId = b'
    · simp [hne] at hm
    · by_cases hc : w.channelInCache b'
      · by_cases hs : w.sendOk b'
        · simp [hne, hc, hs] at hm
          obtain ⟨h1, h2⟩ := hm
          subst h1
          exact ⟨rfl, hne, h2⟩
        · simp [hne, hc, hs] at hm
          obtain ⟨h1, h2⟩ := hm
          subst h1
          exact ⟨rfl, hne, h2⟩
      · simp [hne, hc] at hm

lemma adminNotifyStep_no_channelSend (env : Env) (w : World) (channelId errMsg : String)
    (b : String) (c : MessageContent) :
    Action.channelSend b c ∉ (adminNotifyStep env w channelId errMsg).1 := by
  unfold adminNotifyStep
  cases env.DISCORD_ADMIN_ID <;> simp

lemma adminNotifyStep_fst_some (env : Env) (w : World) (channelId errMsg a : String)
    (ha : env.DISCORD_ADMIN_ID = some a) :
    (adminNotifyStep env w channelId errMsg).1 =
      [Action.adminNotifyAttempt a (adminNotifyText channelId errMsg)] := by
  unfold adminNotifyStep
  rw [ha]

lemma sdm_primary_ok (env : Env) (w : World) (channelId : String) (content : MessageContent)
    (hp : (w.channelInCache channelId && w.sendOk channelId) = true) :
    sendDiscordMessage env w channelId content =
      { result := some ⟨channelId, content⟩
        actions := [Action.channelSend channelId content], log := [] } := by
  unfold sendDiscordMessage
  rw [hp]
  rfl

lemma sdm_backup_only_if (env : Env) (w : World) (channelId : String)
    (content : MessageContent) (b : String) (c : MessageContent)
    (hm : Action.channelSend b c ∈ (sendDiscordMessage env w channelId content).actions)
    (hbne : b ≠ channelId) :
    env.BACKUP_CHANNEL_ID = some b ∧ c = degradedContent content := by
  by_cases hp : (w.channelInCache channelId && w.sendOk channelId) = true
  · rw [sdm_primary_ok env w channelId content hp] at hm
    simp at hm
    exact absurd hm.1 hbne
  · unfold sendDiscordMessage at hm
    rw [Bool.not_eq_true] at hp
    rw [hp] at hm
    simp only [Bool.false_eq_true, if_false] at hm
    rcases hR : (backupAttemptStep env w channelId content).1 with _ | m
    · rw [hR] at hm
      simp only [List.mem_append] at hm
      rcases hm with hm | hm
      · have h := backupAttemptStep_send_mem env w channelId content b c hm
        exact ⟨h.1, h.2.2⟩
      · exact absurd hm (adminNotifyStep_no_channelSend env w channelId
          (primaryErrorMsg w channelId) b c)
    · rw [hR] at hm
      have h := backupAttemptStep_send_mem env w channelId content b c hm
      exact ⟨h.1, h.2.2⟩

lemma sdm_backup_success (env : Env) (w : World) (channelId : String)
    (content : MessageContent) (b : String)
    (hp : (w.channelInCache channelId && w.sendOk channelId) = false)
    (hb : env.BACKUP_CHANNEL_ID = some b) (hne : channelId ≠ b)
    (hc : w.channelInCache b = true) (hs : w.sendOk b = true) :
    (sendDiscordMessage env w channelId content).result =
      some ⟨b, degradedContent content⟩ ∧
    ∀ a s, Action.adminNotifyAttempt a s ∉ (sendDiscordMessage env w channelId content).actions := by
  have hR : (backupAttemptStep env w channelId content).1 =
      some ⟨b, degradedContent content⟩ :=
    backupAttemptStep_fst_eq_some env w channelId content b hb hne hc hs
  have hA : (backupAttemptStep env w channelId content).2.1 =
      [Action.channelSend b (degradedContent content)] := by
    unfold backupAttemptStep
    rw [hb]
    simp [hne, hc, hs]
  unfold sendDiscordMessage
  rw [hp]
  simp only [Bool.false_eq_true, if_false, hR, hA]
  simp

lemma sdm_admin_attempt (env : Env) (w : World) (channelId : String)
    (content : MessageContent) (a : String)
    (hp : (w.channelInCache channelId && w.sendOk channelId) = false)
    (hcase : env.BACKUP_CHANNEL_ID = none ∨
      ∃ b, env.BACKUP_CHANNEL_ID = some b ∧ channelId ≠ b ∧
        w.channelInCache b = true ∧ w.sendOk b = false)
    (ha : env.DISCORD_ADMIN_ID = some a) :
    Action.adminNotifyAttempt a (adminNotifyText channelId (primaryErrorMsg w channelId)) ∈
      (sendDiscordMessage env w channelId content).actions := by
  have hR : (backupAttemptStep env w channelId content).1 = none := by
    rcases hcase with h | ⟨b, hb, hne, hc, hs⟩
    · unfold backupAttemptStep
      rw [h]
    · unfold backupAttemptStep
      rw [hb]
      simp [hne, hc, hs]
  unfold sendDiscordMessage
  rw [hp]
  simp only [Bool.false_eq_true, if_false, hR]
  rw [adminNotifyStep_fst_some env w channelId (primaryErrorMsg w channelId) a ha]
  simp

lemma sdm_all_fail (env : Env) (w : World) (channelId : String) (content : MessageContent)
    (hp : (w.channelInCache channelId && w.sendOk channelId) = false)
    (hnb : ∀ b, env.BACKUP_CHANNEL_ID = some b →
      ¬(channelId ≠ b ∧ w.channelInCache b = true ∧ w.sendOk b = true)) :
    (sendDiscordMessage env w channelId content).result = none := by
  have hR : (backupAttemptStep env w channelId content).1 = none :=
    backupAttemptStep_fst_eq_none env w channelId content hnb
  unfold sendDiscordMessage
  rw [hp]
  simp only [Bool.false_eq_true, if_false, hR]

/-- Claim C2: the delivery cascade of `sendDiscordMessage`.
1. A backup send is attempted only when a backup channel is configured and
   differs from the attempted channel, and it always carries the degraded
   text-only, error-annotated payload.
2. If the primary send fails and the configured, distinct backup send
   succeeds, the call returns that message and no admin notification is
   attempted.
3. If the primary send fails, the backup is unconfigured or its send fails,
   and an admin is configured, a direct admin notification describing the
   failure is attempted.
4. If every path fails, the function returns `null` (the embedding is a
   total function: nothing is rethrown to the caller). -/
theorem sendDiscordMessage_fallback_cascade (env : Env) (w : World) (channelId : String)
    (content : MessageContent) :
    (∀ b c, Action.channelSend b c ∈ (sendDiscordMessage env w channelId content).actions →
      b ≠ channelId → env.BACKUP_CHANNEL_ID = some b ∧ c = degradedContent content) ∧
    (∀ b, (w.channelInCache channelId && w.sendOk channelId) = false →
      env.BACKUP_CHANNEL_ID = some b → channelId ≠ b →
      w.channelInCache b = true → w.sendOk b = true →
      (sendDiscordMessage env w channelId content).result =
        some ⟨b, degradedContent content⟩ ∧
      ∀ a s, Action.adminNotifyAttempt a s ∉
        (sendDiscordMessage env w channelId content).actions) ∧
    (∀ a, (w.channelInCache channelId && w.sendOk channelId) = false →
      (env.BACKUP_CHANNEL_ID = none ∨
        ∃ b, env.BACKUP_CHANNEL_ID = some b ∧ channelId ≠ b ∧
          w.channelInCache b = true ∧ w.sendOk b = false) →
      env.DISCORD_ADMIN_ID = some a →
      Action.adminNotifyAttempt a (adminNotifyText channelId (primaryErrorMsg w channelId)) ∈
        (sendDiscordMessage env w channelId content).actions) ∧
    ((w.channelInCache channelId && w.sendOk channelId) = false →
      (∀ b, env.BACKUP_CHANNEL_ID = some b →
        ¬(channelId ≠ b ∧ w.channelInCache b = true ∧ w.sendOk b = true)) →
      (sendDiscordMessage env w channelId content).result = none) :=
  ⟨fun b c hm hbne => sdm_backup_only_if env w channelId content b c hm hbne,
   fun b hp hb hne hc hs => sdm_backup_success env w channelId content b hp hb hne hc hs,
   fun a hp hcase ha => sdm_admin_attempt env w channelId content a hp hcase ha,
   fun hp hnb => sdm_all_fail env w channelId content hp hnb⟩

/-- A demo configuration for witnesses: primary channel broken, backup works. -/
def demoEnv : Env := ⟨"chan", some "backup", some "admin"⟩

/-- A demo Discord world for witnesses: only the backup channel resolves and
accepts sends. -/
def demoWorld : World :=
  { channelInCache := fun s => s == "backup"
    sendOk := fun s => s == "backup"
    sendErrMsg := fun _ => "boom"
    adminFetchOk := true
    adminSendOk := true
    adminErrMsg := "dm failed" }

/-- Closed witness for the C2 theorem: with the primary channel broken and a
working distinct backup, the call returns the degraded backup message. -/
theorem sendDiscordMessage_fallback_cascade_witness :
    (sendDiscordMessage demoEnv demoWorld "chan" (MessageContent.text "hi")).result =
      some ⟨"backup", degradedContent (MessageContent.text "hi")⟩ :=
  ((sendDiscordMessage_fallback_cascade demoEnv demoWorld "chan"
      (MessageContent.text "hi")).2.1 "backup" rfl rfl (by decide) rfl rfl).1

/-! ## Contest source adapters -/

/-- JS `contest.startTime > now` on a possibly-missing numeric field: a
missing value compares as NaN, so the comparison is false. -/
def jsGtNum (o : Option ℚ) (n : ℚ) : Bool :=
  match o with
  | none => false
  | some q => decide (n < q)

/-- Body of the LeetCode fetch operation after the HTTP call: `none` models a
response missing `data.data.allContests` (an explicit thrown failure), and a
well-shaped response is filtered to contests with `startTime > now`.  The
LeetCode adapter passes the raw records through unchanged. -/
def leetcodeAdapterBody (resp : Option (List Contest)) (now : ℚ) :
    Except String (List Contest) :=
  match resp with
  | none => Except.error "Invalid response structure from LeetCode API"
  | some contests => Except.ok (contests.filter (fun c => jsGtNum c.startTime now))

/-- A raw CodeChef contest entry from the `future_contests` field. -/
structure CCRawContest where
  contest_name : Option String := none
  contest_start_date : String := ""
  contest_end_date : String := ""
  contest_code : String := ""
deriving Repr, DecidableEq

/-- JS `a || dflt` on an optional string (missing and empty are falsy). -/
def jsOrStr (o : Option String) (dflt : String) : String :=
  match o with
  | none => dflt
  | some s => if s = "" then dflt else s

/-- The record the CodeChef adapter builds from one raw entry.  `parseMs`
stands for `new Date(s).getTime()` (milliseconds).  Note the source divides
the millisecond difference by 60, not 60000. -/
def ccConvert (parseMs : String → ℚ) (c : CCRawContest) : Contest :=
  { title := some (jsOrStr c.contest_name "Unnamed Contest")
    startTime := some (parseMs c.contest_start_date / 1000)
    endTime := some (parseMs c.contest_end_date / 1000)
    duration := some ((parseMs c.contest_end_date - parseMs c.contest_start_date) / 60)
    url := some ("https://www.codechef.com/" ++ c.contest_code)
    descr := none }

/-- Body of the CodeChef fetch operation after the HTTP call: `none` models a
response missing `future_contests` (an explicit thrown failure); a well-shaped
response is mapped entrywise with no filtering. -/
def codechefAdapterBody (parseMs : String → ℚ) (resp : Option (List CCRawContest)) :
    Except String (List Contest) :=
  match resp with
  | none => Except.error "Invalid response structure from CodeChef API"
  | some cs => Except.ok (cs.map (ccConvert parseMs))

/-- `fetchLeetCodeContests`: the adapter body wrapped in the retry wrapper,
with the per-attempt HTTP responses supplied externally. -/
def fetchLeetCodeContests (responses : Nat → Option (List Contest)) (now : ℚ) :
    RetryTrace Contest :=
  fetchWithRetry (fun n => leetcodeAdapterBody (responses n) now) "LeetCode" 0

/-- `fetchCodeChefContests`: the adapter body wrapped in the retry wrapper. -/
def fetchCodeChefContests (parseMs : String → ℚ)
    (responses : Nat → Option (List CCRawContest)) : RetryTrace Contest :=
  fetchWithRetry (fun n => codechefAdapterBody parseMs (responses n)) "CodeChef" 0

/-! ## Reminder composer (`sendContestsReminder`) -/

/-- The plain "no contests" message for a platform. -/
def noContestsMsg (platform : String) : String :=
  "No upcoming " ++ platform ++ " contests found. Keep practicing!"

/-- The `content` line accompanying a rich reminder. -/
def mentionText (platform : String) : String :=
  "@everyone Here is your " ++ platform ++ " Contest Reminder! Stay sharp and good luck!"

/-- The embed title of a rich reminder. -/
def embedTitle (platform : String) : String :=
  "Upcoming " ++ platform ++ " Contests"

/-- The duration line of one embed field: the duration is defaulted to 0 when
missing, divided by 60 and rounded (JS `Math.round` = round half up). -/
def durationLine (d : Option ℚ) : String :=
  "Duration: " ++ toString (round ((d.getD 0) / 60)) ++ " hours"

/-- The value text of one embed field: date line, duration line, optional
link line, optional description truncated to 1000 characters. -/
def fieldValue (fmtTime : ℚ → String) (c : Contest) : String :=
  "Date and Time: " ++ fmtTime (c.startTime.getD 0) ++ "\n" ++
  durationLine c.duration ++ "\n" ++
  (if truthyStr c.url then "Join Now: " ++ c.url.getD "" ++ "\n" else "") ++
  (if truthyStr c.descr then "Description: " ++ (c.descr.getD "").take 1000 else "")

/-- The embed field the composer adds for one contest. -/
def renderField (fmtTime : ℚ → String) (c : Contest) : EmbedField :=
  { name := "Contest: " ++ c.title.getD "", value := fieldValue fmtTime c }

/-- The skip guard of the composer loop: a record is rendered only when both
`title` and `startTime` are truthy. -/
def contestComplete (c : Contest) : Bool :=
  truthyStr c.title && truthyNum c.startTime

/-- The warning logged for a record failing the skip guard. -/
def incompleteWarning (platform : String) (c : Contest) : String :=
  "Warning: Incomplete contest data for " ++ platform ++ ": " ++ toString (repr c)

/-- Trace of one composer call: the `sendDiscordMessage` requests issued
(channel id and payload) and the log lines written. -/
structure ReminderTrace where
  requests : List (String × MessageContent)
  log : List String
deriving Repr, DecidableEq

/-- Embedding of `sendContestsReminder(platform, contests)`: an empty list
yields one plain "no contests" request; otherwise one rich request whose
embed holds one field per complete record in input order, with a warning
logged (inside the protecting try block, so nothing is thrown) for each
skipped record. -/
def sendContestsReminder (fmtTime : ℚ → String) (env : Env) (platform : String)
    (contests : List Contest) : ReminderTrace :=
  let log0 := ["Sending " ++ platform ++ " contest reminder, found " ++
    toString contests.length ++ " contests"]
  if contests.length = 0 then
    { requests := [(env.CHANNEL_ID, MessageContent.text (noContestsMsg platform))]
      log := log0 }
  else
    let embed : Embed :=
      { title := embedTitle platform
        fields := (contests.filter contestComplete).map (renderField fmtTime) }
    { requests := [(env.CHANNEL_ID,
        MessageContent.rich (some (mentionText platform)) [embed])]
      log := log0 ++
        (contests.filter (fun c => !contestComplete c)).map (incompleteWarning platform) }

/-- Embedding of `sendCombinedReminder` after both fetches completed: it runs
the composer for LeetCode and then for CodeChef, independently. -/
def sendCombinedReminder (fmtTime : ℚ → String) (env : Env)
    (lcContests ccContests : List Contest) : ReminderTrace :=
  let t1 := sendContestsReminder fmtTime env "LeetCode" lcContests
  let t2 := sendContestsReminder fmtTime env "CodeChef" ccContests
  { requests := t1.requests ++ t2.requests
    log := ["Fetched " ++ toString lcContests.length ++ " LeetCode contests",
            "Fetched " ++ toString ccContests.length ++ " CodeChef contests"] ++
      t1.log ++ t2.log }

/-! ## Scheduler startup (`validateCronExpression` and the cronJobs loop) -/

/-- One entry of the `cronJobs` table. -/
structure CronJob where
  name : String
  expression : String
  handlerTag : String
  descr : String
deriving Repr, DecidableEq

/-- The `cronJobs` table of index.js (handlers identified by name). -/
def cronJobs : List CronJob :=
  [⟨"LeetCode Saturday", "30 12 * * 6", "sendLeetCodeReminder",
     "LeetCode on Saturdays at 6:00 PM IST (12:30 UTC)"⟩,
   ⟨"CodeChef Wednesday", "30 12 * * 3", "sendCodeChefReminder",
     "CodeChef on Wednesdays at 6:00 PM IST (12:30 UTC)"⟩,
   ⟨"Combined Sunday", "0 10 * * 0", "sendCombinedReminder",
     "Combined reminder on Sundays at 3:30 PM IST (10:00 UTC)"⟩,
   ⟨"Ten-minute warnings", "*/30 * * * *", "scheduleTenMinuteWarnings",
     "Schedule ten-minute reminders every 30 mins"⟩]

/-- Embedding of `validateCronExpression(expr, name)`: the external
`cron.validate` call is a parameter that either succeeds or throws with a
message; a throw is caught, logged (expression and error), and turns into
`false`. -/
def validateCronExpression (cronValidate : String → Except String Unit)
    (expr nm : String) : Bool × List String :=
  match cronValidate expr with
  | Except.ok _ => (true, [])
  | Except.error e =>
      (false, ["Invalid cron expression for " ++ nm ++ ": " ++ expr, "Error: " ++ e])

/-- Whether a job passes validation. -/
def jobValid (cronValidate : String → Except String Unit) (job : CronJob) : Bool :=
  (validateCronExpression cronValidate job.expression job.name).1

/-- Trace of the startup scheduling loop: which jobs were registered with
`cron.schedule`, in order, and the log lines written. -/
structure ScheduleTrace where
  registered : List CronJob
  log : List String
deriving Repr, DecidableEq

/-- Embedding of the `cronJobs.forEach` startup loop: each job is validated
independently; valid jobs are registered and logged, invalid jobs only
logged.  Processing one job never affects the others. -/
def scheduleCronJobs (cronValidate : String → Except String Unit) :
    List CronJob → ScheduleTrace
  | [] => { registered := [], log := [] }
  | job :: rest =>
    let v := validateCronExpression cronValidate job.expression job.name
    let t := scheduleCronJobs cronValidate rest
    if v.1 then
      { registered := job :: t.registered
        log := ("Scheduled: " ++ job.name ++ " - " ++ job.descr) :: t.log }
    else
      { registered := t.registered
        log := v.2 ++ ("Failed to schedule job: " ++ job.name) :: t.log }

/-! ## Ten-minute warning scan (`scheduleTenMinuteWarnings`) -/

/-- The arming guard of the warning scan: the contest needs a truthy
`startTime`, and `tenMinBefore = startTime - now - 600` must lie strictly
between 0 and 1800 seconds. -/
def qualifiesForWarning (now : ℚ) (c : Contest) : Bool :=
  truthyNum c.startTime &&
    (decide (0 < c.startTime.getD 0 - now - 600) &&
     decide (c.startTime.getD 0 - now - 600 < 1800))

/-- Embedding of the arming loop of `scheduleTenMinuteWarnings` at wall-clock
second `now`, over the platform-tagged concatenation of both fetch results:
the list of one-shot timers armed, each with its `setTimeout` delay in
milliseconds. -/
def scheduleTenMinuteWarnings (now : ℚ) (allContests : List (Contest × String)) :
    List ((Contest × String) × ℚ) :=
  (allContests.filter (fun p => qualifiesForWarning now p.1)).map
    (fun p => (p, (p.1.startTime.getD 0 - now - 600) * 1000))

/-! ## Theorems for the adapter claims -/

/-- Claim C3: on a well-shaped response, the LeetCode adapter's output
contains exactly the contests whose `startTime` is strictly greater than the
current time, while the CodeChef adapter maps every `future_contests` entry
into its output with no filtering on `startTime`. -/
theorem adapter_time_filtering (contests : List Contest) (now : ℚ)
    (parseMs : String → ℚ) (entries : List CCRawContest) :
    (∀ l, leetcodeAdapterBody (some contests) now = Except.ok l →
      ∀ c, c ∈ l ↔ (c ∈ contests ∧ jsGtNum c.startTime now = true)) ∧
    (∀ l, codechefAdapterBody parseMs (some entries) = Except.ok l →
      l.length = entries.length ∧ ∀ e ∈ entries, ccConvert parseMs e ∈ l) := by
  constructor
  · intro l h c
    have hl : l = contests.filter (fun c => jsGtNum c.startTime now) := by
      simpa [leetcodeAdapterBody] using h.symm
    subst hl
    simp [List.mem_filter]
  · intro l h
    have hl : l = entries.map (ccConvert parseMs) := by
      simpa [codechefAdapterBody] using h.symm
    subst hl
    exact ⟨by simp, fun e he => List.mem_map_of_mem _ he⟩

/-- A contest that already started (for witnesses). -/
def lcPast : Contest := { startTime := some (-100) }

/-- A future contest (for witnesses). -/
def lcFuture : Contest := { title := some "Weekly Contest 300", startTime := some 1000 }

/-- A raw CodeChef entry (for witnesses). -/
def ccStarters : CCRawContest := { contest_name := some "Starters", contest_code := "START1" }

/-- Closed witness for the C3 theorem: the future contest passes the LeetCode
filter, and the CodeChef entry is mapped into the output. -/
theorem adapter_time_filtering_witness :
    (lcFuture ∈ [lcPast, lcFuture] ∧ jsGtNum lcFuture.startTime 0 = true) ∧
    ccConvert (fun _ => 0) ccStarters ∈ [ccConvert (fun _ => 0) ccStarters] := by
  constructor
  · exact ((adapter_time_filtering [lcPast, lcFuture] 0 (fun _ => 0) [ccStarters]).1
      [lcFuture] rfl lcFuture).mp (by decide)
  · exact ((adapter_time_filtering [lcPast, lcFuture] 0 (fun _ => 0) [ccStarters]).2
      [ccConvert (fun _ => 0) ccStarters] rfl).2 ccStarters (by decide)

/-- A Date parser for the C4 evaluation: start parses to 0 ms, end to
10800000 ms (a three-hour contest). -/
def c4Parse : String → ℚ :=
  fun s => if s = "2026-03-01T20:00:00" then 0 else 10800000

/-- The raw CodeChef entry for the C4 evaluation. -/
def c4Entry : CCRawContest :=
  { contest_name := some "March Cook-Off"
    contest_start_date := "2026-03-01T20:00:00"
    contest_end_date := "2026-03-01T23:00:00"
    contest_code := "COOK999" }

/-- Claim C4 (code bug): for a three-hour contest (end minus start =
10800000 ms) the adapter stores `duration = 180000` because the source
divides the millisecond difference by 60; minutes as the spec and the rest of
the code (which renders `duration / 60` as hours) intend would be
10800000 / 60000 = 180. -/
theorem codechef_duration_divides_by_60 :
    (ccConvert c4Parse c4Entry).duration = some 180000 ∧
    ((10800000 : ℚ) - 0) / 60000 = 180 ∧ (180000 : ℚ) ≠ 180 := by
  refine ⟨?_, by norm_num, by norm_num⟩
  show some ((c4Parse c4Entry.contest_end_date - c4Parse c4Entry.contest_start_date) / 60) =
    some 180000
  have h1 : c4Parse c4Entry.contest_start_date = 0 := rfl
  have h2 : c4Parse c4Entry.contest_end_date = 10800000 := rfl
  rw [h1, h2]
  norm_num

/-! ## Theorems for the composer claims -/

/-- Claim C6: on an empty contest list the composer issues exactly one
request, a plain-text "no contests" message; every issued request is plain
text, so no rich embed notification (in particular none with zero fields) is
ever sent on this path. -/
theorem composer_empty_single_plain (fmtTime : ℚ → String) (env : Env) (platform : String) :
    (sendContestsReminder fmtTime env platform []).requests =
      [(env.CHANNEL_ID, MessageContent.text (noContestsMsg platform))] ∧
    ∀ p ∈ (sendContestsReminder fmtTime env platform []).requests,
      ∃ s, p.2 = MessageContent.text s := by
  constructor
  · rfl
  · intro p hp
    simp only [sendContestsReminder] at hp
    simp at hp
    subst hp
    exact ⟨noContestsMsg platform, rfl⟩

/-- Closed witness for the C6 theorem at a concrete platform. -/
theorem composer_empty_single_plain_witness :
    ∃ s, ((demoEnv.CHANNEL_ID, MessageContent.text (noContestsMsg "LeetCode")) :
      String × MessageContent).2 = MessageContent.text s :=
  (composer_empty_single_plain (fun _ => "t") demoEnv "LeetCode").2
    (demoEnv.CHANNEL_ID, MessageContent.text (noContestsMsg "LeetCode"))
    (by simp [sendContestsReminder])

/-- Claim C7: on a non-empty list the composer issues exactly one rich
request whose embed holds one field per complete record, in input order
(records with a falsy `title` or `startTime` contribute no field), and each
skipped record is observable as a warning log line; the embedding is total,
so nothing is thrown. -/
theorem composer_skips_incomplete (fmtTime : ℚ → String) (env : Env) (platform : String)
    (contests : List Contest) (h : contests ≠ []) :
    (sendContestsReminder fmtTime env platform contests).requests =
      [(env.CHANNEL_ID, MessageContent.rich (some (mentionText platform))
        [⟨embedTitle platform, (contests.filter contestComplete).map (renderField fmtTime)⟩])] ∧
    ∀ c ∈ contests, contestComplete c = false →
      incompleteWarning platform c ∈ (sendContestsReminder fmtTime env platform contests).log := by
  have hne : ¬(contests.length = 0) := by simpa [List.length_eq_zero] using h
  constructor
  · simp [sendContestsReminder, hne]
  · intro c hcmem hcf
    have hmem : incompleteWarning platform c ∈
        (contests.filter (fun c => !contestComplete c)).map (incompleteWarning platform) :=
      List.mem_map_of_mem _ (List.mem_filter.mpr ⟨hcmem, by simp [hcf]⟩)
    have hlog : (sendContestsReminder fmtTime env platform contests).log =
        ["Sending " ++ platform ++ " contest reminder, found " ++
          toString contests.length ++ " contests"] ++
        (contests.filter (fun c => !contestComplete c)).map (incompleteWarning platform) := by
      simp [sendContestsReminder, hne]
    rw [hlog]
    exact List.mem_append.mpr (Or.inr hmem)

/-- A record failing the composer skip guard (no title). -/
def incompleteDemo : Contest := { startTime := some 5 }

/-- A record passing the composer skip guard. -/
def completeDemo : Contest := { title := some "Weekly", startTime := some 100 }

/-- Closed witness for the C7 theorem: the title-less record is logged as
skipped. -/
theorem composer_skips_incomplete_witness :
    incompleteWarning "LeetCode" incompleteDemo ∈
      (sendContestsReminder (fun _ => "t") demoEnv "LeetCode"
        [incompleteDemo, completeDemo]).log :=
  (composer_skips_incomplete (fun _ => "t") demoEnv "LeetCode"
    [incompleteDemo, completeDemo] (by simp)).2 incompleteDemo (by decide) (by decide)

/-- Claim C10: a record with truthy `title` and `startTime` but missing or
zero `duration` is not skipped: it is rendered as an embed field, and its
duration line reads "0 hours" because the duration is defaulted to 0 before
dividing by 60 and rounding. -/
theorem composer_renders_zero_duration (fmtTime : ℚ → String) (env : Env) (platform : String)
    (contests : List Contest) (c : Contest) (hc : c ∈ contests)
    (ht : truthyStr c.title = true) (hs : truthyNum c.startTime = true)
    (hd : c.duration = none ∨ c.duration = some 0) :
    contestComplete c = true ∧
    (∃ embed, (env.CHANNEL_ID, MessageContent.rich (some (mentionText platform)) [embed]) ∈
        (sendContestsReminder fmtTime env platform contests).requests ∧
      renderField fmtTime c ∈ embed.fields) ∧
    durationLine c.duration = "Duration: 0 hours" := by
  have hcc : contestComplete c = true := by simp [contestComplete, ht, hs]
  have hne : ¬(contests.length = 0) := by
    intro h0
    rw [List.length_eq_zero] at h0
    subst h0
    cases hc
  refine ⟨hcc, ⟨⟨embedTitle platform, (contests.filter contestComplete).map (renderField fmtTime)⟩,
    ?_, ?_⟩, ?_⟩
  · simp [sendContestsReminder, hne]
  · exact List.mem_map_of_mem _ (List.mem_filter.mpr ⟨hc, hcc⟩)
  · rcases hd with h | h
    · rw [h]
      unfold durationLine
      have hr : round (((none : Option ℚ)).getD 0 / 60) = 0 := by norm_num
      rw [hr]
      rfl
    · rw [h]
      unfold durationLine
      have hr : round (((some (0 : ℚ) : Option ℚ)).getD 0 / 60) = 0 := by norm_num
      rw [hr]
      rfl

/-- A record with a zero duration (for the C10 witness). -/
def zeroDurationDemo : Contest :=
  { title := some "Starters 200", startTime := some 400, duration := some 0 }

/-- Closed witness for the C10 theorem. -/
theorem composer_renders_zero_duration_witness :
    durationLine zeroDurationDemo.duration = "Duration: 0 hours" :=
  (composer_renders_zero_duration (fun _ => "t") demoEnv "CodeChef" [zeroDurationDemo]
    zeroDurationDemo (by decide) (by decide) (by decide) (Or.inr rfl)).2.2

/-- Claim C8: when both adapters return empty lists, the combined path issues
exactly two plain "no contests" requests, one per platform, with distinct
wording (not one merged message and not silence). -/
theorem combined_empty_two_plain (fmtTime : ℚ → String) (env : Env) :
    (sendCombinedReminder fmtTime env [] []).requests =
      [(env.CHANNEL_ID, MessageContent.text (noContestsMsg "LeetCode")),
       (env.CHANNEL_ID, MessageContent.text (noContestsMsg "CodeChef"))] ∧
    (sendCombinedReminder fmtTime env [] []).requests.length = 2 ∧
    (noContestsMsg "LeetCode" == noContestsMsg "CodeChef") = false :=
  ⟨rfl, rfl, by decide⟩

/-! ## Theorems for the scheduler claims -/

lemma scheduleCronJobs_registered (cronValidate : String → Except String Unit)
    (jobs : List CronJob) :
    (scheduleCronJobs cronValidate jobs).registered = jobs.filter (jobValid cronValidate) := by
  induction jobs with
  | nil => rfl
  | cons job rest ih =>
    cases hv : (validateCronExpression cronValidate job.expression job.name).1 <;>
      simp [scheduleCronJobs, List.filter_cons, jobValid, hv, ih]

lemma scheduleCronJobs_invalid_logged (cronValidate : String → Except String Unit)
    (jobs : List CronJob) (job : CronJob) (hj : job ∈ jobs) (e : String)
    (he : cronValidate job.expression = Except.error e) :
    ("Invalid cron expression for " ++ job.name ++ ": " ++ job.expression) ∈
      (scheduleCronJobs cronValidate jobs).log := by
  induction jobs with
  | nil => cases hj
  | cons j rest ih =>
    rcases List.mem_cons.mp hj with hjj | hjr
    · subst hjj
      have hv : (validateCronExpression cronValidate job.expression job.name).1 = false := by
        simp [validateCronExpression, he]
      have hlog : (scheduleCronJobs cronValidate (job :: rest)).log =
          (validateCronExpression cronValidate job.expression job.name).2 ++
            ("Failed to schedule job: " ++ job.name) ::
              (scheduleCronJobs cronValidate rest).log := by
        simp [scheduleCronJobs, hv]
      rw [hlog]
      refine List.mem_append.mpr (Or.inl ?_)
      simp [validateCronExpression, he]
    · cases hv : (validateCronExpression cronValidate j.expression j.name).1
      · have hlog : (scheduleCronJobs cronValidate (j :: rest)).log =
            (validateCronExpression cronValidate j.expression j.name).2 ++
              ("Failed to schedule job: " ++ j.name) ::
                (scheduleCronJobs cronValidate rest).log := by
          simp [scheduleCronJobs, hv]
        rw [hlog]
        exact List.mem_append.mpr (Or.inr (List.mem_cons_of_mem _ (ih hjr)))
      · have hlog : (scheduleCronJobs cronValidate (j :: rest)).log =
            ("Scheduled: " ++ j.name ++ " - " ++ j.descr) ::
              (scheduleCronJobs cronValidate rest).log := by
          simp [scheduleCronJobs, hv]
        rw [hlog]
        exact List.mem_cons_of_mem _ (ih hjr)

/-- Claim C5: in the startup loop, the registered jobs are exactly the jobs
whose expression validates, in table order; every valid entry is registered
regardless of invalid ones elsewhere in the table, and every invalid entry is
not registered and leaves a log line naming its expression. -/
theorem scheduler_invalid_entries_skipped (cronValidate : String → Except String Unit)
    (jobs : List CronJob) :
    (scheduleCronJobs cronValidate jobs).registered = jobs.filter (jobValid cronValidate) ∧
    (∀ job ∈ jobs, jobValid cronValidate job = true →
      job ∈ (scheduleCronJobs cronValidate jobs).registered) ∧
    (∀ job ∈ jobs, ∀ e, cronValidate job.expression = Except.error e →
      job ∉ (scheduleCronJobs cronValidate jobs).registered ∧
      ("Invalid cron expression for " ++ job.name ++ ": " ++ job.expression) ∈
        (scheduleCronJobs cronValidate jobs).log) := by
  have h1 := scheduleCronJobs_registered cronValidate jobs
  refine ⟨h1, ?_, ?_⟩
  · intro job hj hv
    rw [h1]
    exact List.mem_filter.mpr ⟨hj, hv⟩
  · intro job hj e he
    have hv : jobValid cronValidate job = false := by
      simp [jobValid, validateCronExpression, he]
    constructor
    · rw [h1]
      intro hmem
      have := (List.mem_filter.mp hmem).2
      rw [hv] at this
      cases this
    · exact scheduleCronJobs_invalid_logged cronValidate jobs job hj e he

/-- A cron validator that throws on the ten-minute-warnings expression only
(for witnesses). -/
def badValidate : String → Except String Unit :=
  fun e => if e = "*/30 * * * *" then Except.error "invalid pattern" else Except.ok ()

/-- Closed witness for the C5 theorem: with one invalid expression, its log
line appears and the other three jobs are still registered. -/
theorem scheduler_invalid_entries_skipped_witness :
    ("Invalid cron expression for " ++ "Ten-minute warnings" ++ ": " ++ "*/30 * * * *") ∈
      (scheduleCronJobs badValidate cronJobs).log ∧
    (scheduleCronJobs badValidate cronJobs).registered.length = 3 := by
  constructor
  · exact ((scheduler_invalid_entries_skipped badValidate cronJobs).2.2
      ⟨"Ten-minute warnings", "*/30 * * * *", "scheduleTenMinuteWarnings",
        "Schedule ten-minute reminders every 30 mins"⟩ (by decide) "invalid pattern"
      rfl).2
  · rw [(scheduler_invalid_entries_skipped badValidate cronJobs).1]
    decide

/-! ## Theorem for the warning-scan claim -/

/-- Claim C9: the scan arms a one-shot warning for a contest with a valid
(truthy) `startTime` if and only if its start is strictly more than 600 and
strictly less than 2400 seconds away; a contest starting exactly 10 minutes
from now, or 40 or more minutes away, gets nothing armed. -/
theorem tenMinuteWarnings_window (now : ℚ) (cs : List (Contest × String)) (c : Contest)
    (tag : String) (t : ℚ) (hst : c.startTime = some t) (htr : t ≠ 0) :
    ((c, tag) ∈ (scheduleTenMinuteWarnings now cs).map Prod.fst) ↔
      ((c, tag) ∈ cs ∧ 600 < t - now ∧ t - now < 2400) := by
  unfold scheduleTenMinuteWarnings
  rw [List.map_map]
  have hid : (Prod.fst ∘ fun p : Contest × String =>
      (p, (p.1.startTime.getD 0 - now - 600) * 1000)) = id := rfl
  rw [hid, List.map_id, List.mem_filter]
  simp only [qualifiesForWarning, hst, truthyNum, Option.getD_some, Bool.and_eq_true,
    decide_eq_true_eq, bne_iff_ne, ne_eq]
  constructor
  · rintro ⟨h1, _, h2, h3⟩
    exact ⟨h1, by linarith, by linarith⟩
  · rintro ⟨h1, h2, h3⟩
    exact ⟨h1, htr, by linarith, by linarith⟩

/-- A contest 1000 seconds away (inside the arming window, for the C9
witness). -/
def warnDemo : Contest := { title := some "Biweekly 140", startTime := some 1000 }

/-- Closed witness for the C9 theorem: at `now = 0` the contest 1000 seconds
away is armed. -/
theorem tenMinuteWarnings_window_witness :
    ((warnDemo, "LeetCode") ∈
      (scheduleTenMinuteWarnings 0 [(warnDemo, "LeetCode")]).map Prod.fst) :=
  (tenMinuteWarnings_window 0 [(warnDemo, "LeetCode")] warnDemo "LeetCode" 1000 rfl
    (by norm_num)).mpr ⟨by decide, by norm_num, by norm_num⟩

end ContestBot
